import Mathlib

/-!
Verification of the data loading and normalization layer of the
nadosuyeong-polar-plant dashboard (src/main.py).

The embedding models:
* the Catalog Resolver (`normalize_name`, `find_file_by_name`), parametrised
  by the two Unicode normalization functions NFC and NFD (library functions,
  characterised only by the standard idempotence laws where needed);
* the Dataset Loader (`load_environment_data`, `load_growth_data`) over an
  explicit directory listing (`DirEntry`) and explicit file-content oracles
  (`readCsv` for CSV files, `workbook` for the spreadsheet), with failures
  modelled as `Except LoadError`;
* the derived columns (`pct_change` per school, the growth rate, and the
  grouped summary), with numeric cells modelled as rationals.
-/

/-- A directory entry as produced by `Path.iterdir`: a file name together
with whether the entry is a regular file (`is_file`). -/
structure DirEntry where
  name : String
  isFile : Bool
deriving DecidableEq

/-- `normalize_name` from src/main.py: the set (here: two-element list) of
the NFC and NFD normal forms of a name. -/
def normalize_name (NFC NFD : String → String) (name : String) : List String :=
  [NFC name, NFD name]

/-- `find_file_by_name` from src/main.py: scan the directory in order and
return the first regular file whose NFC or NFD form lies in the target's
normalized-form set. -/
def find_file_by_name (NFC NFD : String → String) (directory : List DirEntry)
    (target_name : String) : Option DirEntry :=
  directory.find? fun f =>
    f.isFile &&
      ((normalize_name NFC NFD target_name).contains (NFC f.name) ||
       (normalize_name NFC NFD target_name).contains (NFD f.name))

theorem find_match_iff (NFC NFD : String → String) (t : String) (f : DirEntry) :
    (f.isFile &&
      ((normalize_name NFC NFD t).contains (NFC f.name) ||
       (normalize_name NFC NFD t).contains (NFD f.name))) = true
    ↔ f.isFile = true ∧
        (NFC f.name = NFC t ∨ NFC f.name = NFD t ∨ NFD f.name = NFC t ∨ NFD f.name = NFD t) := by
  simp [normalize_name]
  tauto

/-- Claim C1: for a target whose NFC and NFD forms differ, `find_file_by_name`
(1) matches an entry exactly when the entry is a regular file and the set of
its normalized forms meets the target's normalized-form set, (2) returns only
regular files satisfying that match, and (3) finds a file stored byte-wise
under either normal form of the target. -/
theorem claim_C1_catalog_resolver (NFC NFD : String → String) (directory : List DirEntry)
    (t : String) (hdiff : NFC t ≠ NFD t)
    (hcc : NFC (NFC t) = NFC t) (hdd : NFD (NFD t) = NFD t) :
    (∀ f : DirEntry,
        (f.isFile &&
          ((normalize_name NFC NFD t).contains (NFC f.name) ||
           (normalize_name NFC NFD t).contains (NFD f.name))) = true
        ↔ f.isFile = true ∧
            (NFC f.name = NFC t ∨ NFC f.name = NFD t ∨ NFD f.name = NFC t ∨ NFD f.name = NFD t))
    ∧ (∀ f : DirEntry, find_file_by_name NFC NFD directory t = some f →
        f.isFile = true ∧
          (NFC f.name = NFC t ∨ NFC f.name = NFD t ∨ NFD f.name = NFC t ∨ NFD f.name = NFD t))
    ∧ ((∃ f ∈ directory, f.isFile = true ∧ (f.name = NFC t ∨ f.name = NFD t)) →
        ∃ f, find_file_by_name NFC NFD directory t = some f ∧ f.isFile = true) := by
  refine ⟨fun f => find_match_iff NFC NFD t f, ?_, ?_⟩
  · intro f hf
    unfold find_file_by_name at hf
    have hp := List.find?_some hf
    exact (find_match_iff NFC NFD t f).mp hp
  · rintro ⟨f, hmem, hfile, hname⟩
    have hp : (f.isFile &&
        ((normalize_name NFC NFD t).contains (NFC f.name) ||
         (normalize_name NFC NFD t).contains (NFD f.name))) = true := by
      refine (find_match_iff NFC NFD t f).mpr ⟨hfile, ?_⟩
      rcases hname with h | h
      · exact Or.inl (by rw [h, hcc])
      · exact Or.inr (Or.inr (Or.inr (by rw [h, hdd])))
    have hsome : (find_file_by_name NFC NFD directory t).isSome = true := by
      unfold find_file_by_name
      exact List.find?_isSome.mpr ⟨f, hmem, hp⟩
    rcases Option.isSome_iff_exists.mp hsome with ⟨g, hg⟩
    have hg2 := hg
    unfold find_file_by_name at hg2
    have hq := List.find?_some hg2
    exact ⟨g, hg, ((find_match_iff NFC NFD t g).mp hq).1⟩

/-- A toy composed-form function used only to instantiate the abstract NFC
parameter on a concrete input: "d" is the decomposed spelling of "c". -/
def toyNFC : String → String := fun s => if s = "d" then "c" else s

/-- A toy decomposed-form function matching `toyNFC`. -/
def toyNFD : String → String := fun s => if s = "c" then "d" else s

/-- Witness for C1 at a concrete input: the target "c" (composed form) finds
the file stored under the decomposed spelling "d". -/
theorem claim_C1_catalog_resolver_witness :
    ∃ f, find_file_by_name toyNFC toyNFD [⟨"d", true⟩] "c" = some f ∧ f.isFile = true :=
  (claim_C1_catalog_resolver toyNFC toyNFD [⟨"d", true⟩] "c" (by decide) (by decide)
      (by decide)).2.2 ⟨⟨"d", true⟩, by decide, by decide, Or.inr (by decide)⟩

/-- The failure taxonomy of the loaders: a missing per-school environment
file (the `st.error` + `return None` branch of `load_environment_data`,
identifying the school) or a missing spreadsheet workbook (the `st.error` +
`return None` branch of `load_growth_data`). -/
inductive LoadError where
  | missingFile (school : String)
  | missingWorkbook
deriving DecidableEq

/-- One row of a per-school environment CSV file (columns `time`, `ph`,
`ec`, `temperature`). -/
structure EnvRow where
  time : String
  ph : ℚ
  ec : ℚ
  temperature : ℚ
deriving DecidableEq

/-- An environment row after `df["학교"] = school` tagged it with its
source school. -/
structure TaggedEnvRow extends EnvRow where
  «학교» : String
deriving DecidableEq

/-- `EC_MAP` from src/main.py: the configured school → concentration table,
in insertion order. -/
def EC_MAP : List (String × ℚ) :=
  [("송도고", 1), ("하늘고", 2), ("아라고", 4), ("동산고", 8)]

/-- `EC_MAP.keys()`: the configured schools in insertion order. -/
def ecSchools : List String := EC_MAP.map Prod.fst

/-- The fixed naming convention for a school's environment file
(`f"{school}_환경데이터.csv"` in the source, written here as
concatenation). -/
def envFileName (school : String) : String := school ++ "_환경데이터.csv"

/-- The `for school in EC_MAP.keys()` loop body of `load_environment_data`:
resolve each school's file, failing with `missingFile school` at the first
school whose file is unresolvable, otherwise read, tag and collect. -/
def loadEnvLoop (NFC NFD : String → String) (directory : List DirEntry)
    (readCsv : String → List EnvRow) :
    List String → Except LoadError (List (String × List TaggedEnvRow))
  | [] => .ok []
  | school :: rest =>
    match find_file_by_name NFC NFD directory (envFileName school) with
    | none => .error (.missingFile school)
    | some f =>
      match loadEnvLoop NFC NFD directory readCsv rest with
      | .error e => .error e
      | .ok m => .ok ((school, (readCsv f.name).map fun r => ⟨r, school⟩) :: m)

/-- `load_environment_data` from src/main.py, over an explicit directory
listing and CSV-content oracle. -/
def load_environment_data (NFC NFD : String → String) (directory : List DirEntry)
    (readCsv : String → List EnvRow) : Except LoadError (List (String × List TaggedEnvRow)) :=
  loadEnvLoop NFC NFD directory readCsv ecSchools

theorem loadEnvLoop_error_of_missing (NFC NFD : String → String)
    (directory : List DirEntry) (readCsv : String → List EnvRow) (schools : List String)
    (h : ∃ s ∈ schools, find_file_by_name NFC NFD directory (envFileName s) = none) :
    ∃ s2, loadEnvLoop NFC NFD directory readCsv schools = .error (.missingFile s2) ∧
      s2 ∈ schools ∧ find_file_by_name NFC NFD directory (envFileName s2) = none := by
  induction schools with
  | nil => simp at h
  | cons school rest ih =>
    rcases h with ⟨s, hs, hnone⟩
    by_cases hfirst : find_file_by_name NFC NFD directory (envFileName school) = none
    · exact ⟨school, by simp [loadEnvLoop, hfirst], List.mem_cons_self school rest, hfirst⟩
    · have hs' : s ∈ rest := by
        rcases List.mem_cons.mp hs with rfl | hmem
        · exact absurd hnone hfirst
        · exact hmem
      rcases ih ⟨s, hs', hnone⟩ with ⟨s2, herr, hmem2, hnone2⟩
      rcases Option.ne_none_iff_exists'.mp hfirst with ⟨f, hf⟩
      exact ⟨s2, by simp [loadEnvLoop, hf, herr], List.mem_cons_of_mem _ hmem2, hnone2⟩

/-- Claim C2: if any configured school has no resolvable environment file,
`load_environment_data` fails with `missingFile` identifying such a school
and never returns any (even partial) mapping. -/
theorem claim_C2_env_ingestion_fail_stop (NFC NFD : String → String)
    (directory : List DirEntry) (readCsv : String → List EnvRow)
    (h : ∃ s ∈ ecSchools, find_file_by_name NFC NFD directory (envFileName s) = none) :
    ∃ s2, load_environment_data NFC NFD directory readCsv = .error (.missingFile s2) ∧
      s2 ∈ ecSchools ∧ find_file_by_name NFC NFD directory (envFileName s2) = none :=
  loadEnvLoop_error_of_missing NFC NFD directory readCsv ecSchools h

/-- Witness for C2 at a concrete input: over an empty data directory the
ingestion fails with `missingFile` for a configured school. -/
theorem claim_C2_env_ingestion_fail_stop_witness :
    ∃ s2, load_environment_data id id [] (fun _ => []) = .error (.missingFile s2) ∧
      s2 ∈ ecSchools ∧ find_file_by_name id id [] (envFileName s2) = none :=
  claim_C2_env_ingestion_fail_stop id id [] (fun _ => [])
    ⟨"송도고", by decide, rfl⟩

/-- `Path.suffix` from Python's pathlib, on a file name: the extension from
the last dot onwards, empty when the only dot is leading (hidden file) or
trailing, or when there is no dot. -/
def pySuffix (s : String) : String :=
  let cs := s.toList
  match cs.reverse.findIdx? (· = '.') with
  | none => ""
  | some r =>
    if 0 < cs.length - 1 - r ∧ 0 < r then String.mk (cs.drop (cs.length - 1 - r)) else ""

/-- One raw row of a growth sheet: the two measured length columns. -/
structure RawGrowthRow where
  «지상부 길이(mm)» : ℚ
  «지하부길이(mm)» : ℚ
deriving DecidableEq

/-- A growth row after the loader tagged it with `df["학교"] = sheet` and
`df["EC"] = EC_MAP.get(sheet, None)`. -/
structure GrowthRow extends RawGrowthRow where
  «학교» : String
  EC : Option ℚ
deriving DecidableEq

/-- The `for f in DATA_DIR.iterdir(): if f.suffix == ".xlsx": ... break`
scan of `load_growth_data`: the first entry whose suffix is `.xlsx`. -/
def firstXlsx (directory : List DirEntry) : Option DirEntry :=
  directory.find? fun f => pySuffix f.name == ".xlsx"

/-- Tagging of one sheet's rows: school := sheet name, EC := the configured
concentration when the sheet is a configured school, else `none`. -/
def tagSheet (sheet : String) (rows : List RawGrowthRow) : List GrowthRow :=
  rows.map fun r => ⟨r, sheet, EC_MAP.lookup sheet⟩

/-- `load_growth_data` from src/main.py, over an explicit directory listing
and a workbook oracle mapping a file name to its (sheet name, sheet rows)
list. -/
def load_growth_data (directory : List DirEntry)
    (workbook : String → List (String × List RawGrowthRow)) :
    Except LoadError (List (String × List GrowthRow)) :=
  match firstXlsx directory with
  | none => .error .missingWorkbook
  | some f => .ok ((workbook f.name).map fun p => (p.1, tagSheet p.1 p.2))

/-- Claim C3: with zero spreadsheet files in the data directory, growth
ingestion fails with `missingWorkbook` and returns no mapping. -/
theorem claim_C3_growth_ingestion_missing_workbook (directory : List DirEntry)
    (workbook : String → List (String × List RawGrowthRow))
    (h : ∀ f ∈ directory, pySuffix f.name ≠ ".xlsx") :
    load_growth_data directory workbook = .error .missingWorkbook := by
  have hnone : firstXlsx directory = none := by
    unfold firstXlsx
    refine List.find?_eq_none.mpr ?_
    intro f hf
    simp [h f hf]
  simp [load_growth_data, hnone]

/-- Witness for C3 at a concrete input: a directory holding a lone CSV file
has no workbook, so growth ingestion fails. -/
theorem claim_C3_growth_ingestion_missing_workbook_witness :
    load_growth_data [⟨"하늘고_환경데이터.csv", true⟩] (fun _ => []) = .error .missingWorkbook :=
  claim_C3_growth_ingestion_missing_workbook [⟨"하늘고_환경데이터.csv", true⟩] (fun _ => [])
    (by decide)

/-- Claim C7: a workbook sheet whose name is not a configured school does
not make growth ingestion fail: its rows are parsed, tagged with the sheet
name as school and a `none` concentration, and the sheet appears in the
returned mapping. -/
theorem claim_C7_unmapped_sheet_tolerated (directory : List DirEntry)
    (workbook : String → List (String × List RawGrowthRow)) (f : DirEntry)
    (sheet : String) (rows : List RawGrowthRow)
    (hf : firstXlsx directory = some f)
    (hs : (sheet, rows) ∈ workbook f.name)
    (hec : EC_MAP.lookup sheet = none) :
    ∃ t, load_growth_data directory workbook = .ok t ∧
      (sheet, tagSheet sheet rows) ∈ t ∧
      ∀ r ∈ tagSheet sheet rows, r.«학교» = sheet ∧ r.EC = none := by
  refine ⟨(workbook f.name).map fun p => (p.1, tagSheet p.1 p.2),
    by simp [load_growth_data, hf], ?_, ?_⟩
  · exact List.mem_map.mpr ⟨(sheet, rows), hs, rfl⟩
  · intro r hr
    rcases List.mem_map.mp hr with ⟨raw, _hraw, rfl⟩
    exact ⟨rfl, hec⟩

/-- Witness for C7 at a concrete input: a workbook whose only sheet
"신생고" is not in `EC_MAP` is still ingested, with a `none` EC. -/
theorem claim_C7_unmapped_sheet_tolerated_witness :
    ∃ t, load_growth_data [⟨"생육결과.xlsx", true⟩]
          (fun _ => [("신생고", [⟨10, 20⟩])]) = .ok t ∧
      ("신생고", tagSheet "신생고" [⟨10, 20⟩]) ∈ t ∧
      ∀ r ∈ tagSheet "신생고" [⟨10, 20⟩], r.«학교» = "신생고" ∧ r.EC = none :=
  claim_C7_unmapped_sheet_tolerated [⟨"생육결과.xlsx", true⟩]
    (fun _ => [("신생고", [⟨10, 20⟩])]) ⟨"생육결과.xlsx", true⟩ "신생고" [⟨10, 20⟩]
    (by decide) (by decide) (by decide)

theorem firstXlsx_first_match (pre post : List DirEntry) (f : DirEntry)
    (hpre : ∀ g ∈ pre, pySuffix g.name ≠ ".xlsx") (hf : pySuffix f.name = ".xlsx") :
    firstXlsx (pre ++ f :: post) = some f := by
  induction pre with
  | nil =>
    unfold firstXlsx
    rw [List.nil_append]
    exact List.find?_cons_of_pos _ (by simp [hf])
  | cons g pre2 ih =>
    unfold firstXlsx
    rw [List.cons_append]
    rw [List.find?_cons_of_neg _ (by simp [hpre g (List.mem_cons_self g pre2)])]
    exact ih fun g2 hg2 => hpre g2 (List.mem_cons_of_mem g hg2)

/-- Claim C8: growth ingestion selects exactly the first `.xlsx` entry in
directory-scan order and ingests only that workbook, no matter how many
further spreadsheet files follow. -/
theorem claim_C8_first_workbook_only (pre post : List DirEntry) (f : DirEntry)
    (workbook : String → List (String × List RawGrowthRow))
    (hpre : ∀ g ∈ pre, pySuffix g.name ≠ ".xlsx") (hf : pySuffix f.name = ".xlsx") :
    load_growth_data (pre ++ f :: post) workbook =
      .ok ((workbook f.name).map fun p => (p.1, tagSheet p.1 p.2)) := by
  simp [load_growth_data, firstXlsx_first_match pre post f hpre hf]

/-- Witness for C8 at a concrete input: with a text file before it and a
second spreadsheet after it, only the first `.xlsx` file is ingested. -/
theorem claim_C8_first_workbook_only_witness :
    load_growth_data ([⟨"note.txt", true⟩] ++ ⟨"생육결과.xlsx", true⟩ :: [⟨"다른결과.xlsx", true⟩])
        (fun n => if n = "생육결과.xlsx" then [("하늘고", [⟨10, 20⟩])] else [("동산고", [⟨1, 1⟩])]) =
      .ok ([("하늘고", [⟨10, 20⟩])].map fun p => (p.1, tagSheet p.1 p.2)) :=
  claim_C8_first_workbook_only [⟨"note.txt", true⟩] [⟨"다른결과.xlsx", true⟩]
    ⟨"생육결과.xlsx", true⟩
    (fun n => if n = "생육결과.xlsx" then [("하늘고", [⟨10, 20⟩])] else [("동산고", [⟨1, 1⟩])])
    (by decide) (by decide)

/-- The ordered tail of a percent-change computation: each element is
`(current - previous) / previous` for consecutive samples. -/
def pct_change_go (prev : ℚ) : List ℚ → List (Option ℚ)
  | [] => []
  | v :: rest => some ((v - prev) / prev) :: pct_change_go v rest

/-- Percent change over one ordered sample list: the first sample has no
predecessor, so its entry is `none`; afterwards `(current - previous) /
previous`. -/
def pct_change : List ℚ → List (Option ℚ)
  | [] => []
  | v :: rest => none :: pct_change_go v rest

/-- Worker of the grouped percent change, carrying the most recent value
seen for each key (most recent first, as an association list). -/
def groupPctGo (seen : List (String × ℚ)) : List (String × ℚ) → List (Option ℚ)
  | [] => []
  | (k, v) :: rest =>
    (match seen.lookup k with
     | none => none
     | some prev => some ((v - prev) / prev)) :: groupPctGo ((k, v) :: seen) rest

/-- `df.groupby("학교")[col].pct_change()` over a (school, value) column:
each row's entry is the fractional change from the previous row of the same
school, and `none` when the school has no earlier row. -/
def groupby_pct_change (rows : List (String × ℚ)) : List (Option ℚ) :=
  groupPctGo [] rows

theorem groupPctGo_single (s : String) (vs : List ℚ) :
    ∀ (prev : ℚ) (seen : List (String × ℚ)),
      groupPctGo ((s, prev) :: seen) (vs.map fun v => (s, v)) = pct_change_go prev vs := by
  induction vs with
  | nil => intro prev seen; rfl
  | cons v rest ih =>
    intro prev seen
    simp only [List.map_cons, groupPctGo, List.lookup, beq_self_eq_true, pct_change_go,
      List.cons.injEq]
    exact ⟨trivial, ih v ((s, prev) :: seen)⟩

theorem groupby_pct_change_single (s : String) (vs : List ℚ) :
    groupby_pct_change (vs.map fun v => (s, v)) = pct_change vs := by
  cases vs with
  | nil => rfl
  | cons v rest =>
    simp only [groupby_pct_change, List.map_cons, groupPctGo, List.lookup, pct_change,
      List.cons.injEq]
    exact ⟨trivial, groupPctGo_single s rest v []⟩

theorem groupPctGo_first_occurrence (pre : List (String × ℚ)) (k : String) (v : ℚ)
    (rest : List (String × ℚ)) :
    ∀ seen : List (String × ℚ), (∀ p ∈ pre, p.1 ≠ k) → seen.lookup k = none →
      (groupPctGo seen (pre ++ (k, v) :: rest)).get? pre.length = some none := by
  induction pre with
  | nil =>
    intro seen _ hseen
    simp [groupPctGo, hseen]
  | cons p pre2 ih =>
    intro seen hpre hseen
    obtain ⟨pk, pv⟩ := p
    have hpk : pk ≠ k := hpre (pk, pv) (List.mem_cons_self _ _)
    have hlook : ((pk, pv) :: seen).lookup k = none := by
      have hbeq : (k == pk) = false := beq_eq_false_iff_ne.mpr fun h => hpk h.symm
      simp [List.lookup, hbeq, hseen]
    simpa [groupPctGo] using
      ih ((pk, pv) :: seen) (fun q hq => hpre q (List.mem_cons_of_mem _ hq)) hlook

/-- Claim C4: the per-school percent-change derivation maps the ordered
samples `[10, 12, 9]` of a school to `[none, 1/5, -(1/4)]`; on one school's
samples it is `(current - previous) / previous` over consecutive samples;
and the first sample of a school (no earlier row of the same school) always
yields `none`. -/
theorem claim_C4_pct_change_per_school :
    (∀ s : String,
        groupby_pct_change [(s, 10), (s, 12), (s, 9)] = [none, some (1/5), some (-(1/4))])
    ∧ (∀ (s : String) (vs : List ℚ),
        groupby_pct_change (vs.map fun v => (s, v)) = pct_change vs)
    ∧ (∀ (pre rest : List (String × ℚ)) (k : String) (v : ℚ), (∀ p ∈ pre, p.1 ≠ k) →
        (groupby_pct_change (pre ++ (k, v) :: rest)).get? pre.length = some none) := by
  refine ⟨?_, groupby_pct_change_single, ?_⟩
  · intro s
    have h := groupby_pct_change_single s [10, 12, 9]
    simp only [List.map_cons, List.map_nil] at h
    rw [h]
    norm_num [pct_change, pct_change_go]
  · intro pre rest k v hpre
    exact groupPctGo_first_occurrence pre k v rest [] hpre rfl

/-- Witness for C4 at a concrete input: the first row of school "아라고",
coming after a row of another school, gets a `none` percent change. -/
theorem claim_C4_pct_change_per_school_witness :
    (groupby_pct_change ([("하늘고", 10)] ++ ("아라고", 20) :: [])).get? 1 = some none :=
  claim_C4_pct_change_per_school.2.2 [("하늘고", 10)] [] "아라고" 20 (by decide)

/-- A growth row after `growth_all["생장률"] = (지상부 + 지하부) / 2` added
the derived growth-rate column. -/
structure GrowthRowD extends GrowthRow where
  «생장률» : ℚ
deriving DecidableEq

/-- One row of the grouped summary (`groupby(["학교", "EC"])["생장률"]
.mean().reset_index()`). -/
structure SummaryRow where
  «학교» : String
  EC : ℚ
  «생장률» : ℚ
deriving DecidableEq

/-- The growth-rate derivation of src/main.py (line 135-137): the sum of
the two length columns divided by two. -/
def addGrowthRate (r : GrowthRow) : GrowthRowD :=
  { r with «생장률» := (r.«지상부 길이(mm)» + r.«지하부길이(mm)») / 2 }

/-- The arithmetic mean of a list of rationals (sum over length). -/
def meanQ (l : List ℚ) : ℚ := l.sum / l.length

/-- `pd.concat(growth_data.values())`: the unified growth table, the
concatenation of the per-sheet tables in mapping order. -/
def growth_all (gd : List (String × List GrowthRow)) : List GrowthRow :=
  (gd.map Prod.snd).flatten

/-- The group keys of `groupby(["학교", "EC"])`: the distinct (school,
concentration) pairs among rows whose EC key is present — pandas drops
groups whose key contains a null. -/
def groupKeys (rows : List GrowthRowD) : List (String × ℚ) :=
  (rows.filterMap fun r => r.EC.map fun e => (r.«학교», e)).dedup

/-- The mean growth rate of one (school, concentration) group. -/
def groupMean (rows : List GrowthRowD) (k : String × ℚ) : ℚ :=
  meanQ ((rows.filter fun r => decide (r.«학교» = k.1 ∧ r.EC = some k.2)).map
    fun r => r.«생장률»)

/-- The grouped summary of src/main.py (lines 203-208): one row per
(school, concentration) group with that group's mean growth rate. -/
def summaryOf (rows : List GrowthRowD) : List SummaryRow :=
  (groupKeys rows).map fun k => ⟨k.1, k.2, groupMean rows k⟩

/-- Claim C5: the derived growth rate of every row is exactly the
arithmetic mean of the above-ground and below-ground length columns, and a
row with lengths 10 and 20 gets growth rate 15. -/
theorem claim_C5_growth_rate_is_mean :
    (∀ r : GrowthRow,
        (addGrowthRate r).«생장률» = meanQ [r.«지상부 길이(mm)», r.«지하부길이(mm)»])
    ∧ ∀ (s : String) (ec : Option ℚ),
        (addGrowthRate ⟨⟨10, 20⟩, s, ec⟩).«생장률» = 15 := by
  constructor
  · intro r
    simp [addGrowthRate, meanQ]
  · intro s ec
    norm_num [addGrowthRate]

theorem mem_groupKeys (rows : List GrowthRowD) (k : String × ℚ) :
    k ∈ groupKeys rows ↔ ∃ r ∈ rows, r.«학교» = k.1 ∧ r.EC = some k.2 := by
  obtain ⟨k1, k2⟩ := k
  simp only [groupKeys, List.mem_dedup, List.mem_filterMap, Option.map_eq_some']
  constructor
  · rintro ⟨r, hr, e, hEC, heq⟩
    rcases Prod.mk.injEq .. ▸ heq with ⟨h1, h2⟩
    exact ⟨r, hr, h1, h2 ▸ hEC⟩
  · rintro ⟨r, hr, h1, h2⟩
    exact ⟨r, hr, k2, h2, by rw [h1]⟩

/-- Claim C6: the grouped summary has exactly one row per (school,
concentration) group — its keys are pairwise distinct and a key occurs
exactly when some row carries it — and each summary row holds the mean of
its group's growth rates; concretely, rows of school "하늘고" with growth
rates 10 and 20 at concentration 2 summarise to the single row
(하늘고, 2, 15). -/
theorem claim_C6_grouped_summary :
    (summaryOf [addGrowthRate ⟨⟨10, 10⟩, "하늘고", some 2⟩,
        addGrowthRate ⟨⟨20, 20⟩, "하늘고", some 2⟩] = [⟨"하늘고", 2, 15⟩])
    ∧ (∀ rows : List GrowthRowD,
        ((summaryOf rows).map fun srow => (srow.«학교», srow.EC)).Nodup)
    ∧ (∀ rows : List GrowthRowD, ∀ srow ∈ summaryOf rows,
        srow.«생장률» = groupMean rows (srow.«학교», srow.EC))
    ∧ (∀ (rows : List GrowthRowD) (k : String × ℚ),
        (∃ srow ∈ summaryOf rows, srow.«학교» = k.1 ∧ srow.EC = k.2) ↔
          ∃ r ∈ rows, r.«학교» = k.1 ∧ r.EC = some k.2) := by
  refine ⟨?_, ?_, ?_, ?_⟩
  · simp +decide [summaryOf, groupKeys, groupMean, meanQ, addGrowthRate, List.dedup,
      List.pwFilter]
    norm_num
  · intro rows
    have hmap : ((summaryOf rows).map fun srow => (srow.«학교», srow.EC)) = groupKeys rows := by
      simp [summaryOf, List.map_map, Function.comp_def]
    rw [hmap]
    exact List.nodup_dedup _
  · intro rows srow hs
    rcases List.mem_map.mp hs with ⟨k, _hk, rfl⟩
    simp [groupMean]
  · intro rows k
    constructor
    · rintro ⟨srow, hmem, h1, h2⟩
      rcases List.mem_map.mp hmem with ⟨k2, hk2, rfl⟩
      have hk : k2 = k := Prod.ext_iff.mpr ⟨h1, h2⟩
      exact (mem_groupKeys rows k).mp (hk ▸ hk2)
    · intro hr
      exact ⟨⟨k.1, k.2, groupMean rows k⟩,
        List.mem_map.mpr ⟨k, (mem_groupKeys rows k).mpr hr, rfl⟩, rfl, rfl⟩

theorem groupKeys_filter_isSome (rows : List GrowthRowD) :
    groupKeys (rows.filter fun r => r.EC.isSome) = groupKeys rows := by
  unfold groupKeys
  congr 1
  induction rows with
  | nil => rfl
  | cons r rest ih =>
    cases hEC : r.EC with
    | none => simp [List.filter, List.filterMap, hEC, ih]
    | some e => simp [List.filter, List.filterMap, hEC, ih]

theorem groupMean_filter_isSome (rows : List GrowthRowD) (k : String × ℚ) :
    groupMean (rows.filter fun r => r.EC.isSome) k = groupMean rows k := by
  unfold groupMean
  congr 2
  rw [List.filter_filter]
  apply List.filter_congr
  intro r _
  by_cases h2 : r.EC = some k.2
  · simp [h2]
  · simp [h2]

/-- The concrete two-sheet workbook used to witness C10: sheet "하늘고" is
a configured school, sheet "신생고" is not. -/
def demoWorkbook : String → List (String × List RawGrowthRow) :=
  fun _ => [("하늘고", [⟨10, 10⟩]), ("신생고", [⟨20, 20⟩])]

/-- Claim C10 (implicit): rows whose sheet is not in `EC_MAP` carry a
`none` EC; they appear in the unified growth table but are silently dropped
from the grouped summary, because grouping on (school, EC) drops rows with
a null key: the summary of any table equals the summary of its EC-present
rows, and in the concrete two-sheet pipeline the "신생고" row is in
`growth_all` yet absent from the summary. -/
theorem claim_C10_null_ec_rows_dropped :
    (∀ rows : List GrowthRowD,
        summaryOf rows = summaryOf (rows.filter fun r => r.EC.isSome))
    ∧ ∃ t, load_growth_data [⟨"생육결과.xlsx", true⟩] demoWorkbook = .ok t ∧
        (∃ r ∈ growth_all t, r.«학교» = "신생고" ∧ r.EC = none) ∧
        summaryOf ((growth_all t).map addGrowthRate) = [⟨"하늘고", 2, 10⟩] := by
  constructor
  · intro rows
    unfold summaryOf
    rw [groupKeys_filter_isSome]
    simp only [groupMean_filter_isSome]
  · refine ⟨(demoWorkbook "생육결과.xlsx").map fun p => (p.1, tagSheet p.1 p.2), ?_, ?_, ?_⟩
    · rfl
    · exact ⟨⟨⟨20, 20⟩, "신생고", none⟩, by decide, rfl, rfl⟩
    · simp +decide [demoWorkbook, growth_all, tagSheet, summaryOf, groupKeys, groupMean,
        meanQ, addGrowthRate, EC_MAP, List.lookup, List.dedup, List.pwFilter]

/-- `@st.cache_data` modelled as an explicit process-scoped cache: a cached
call either returns the cached value with zero filesystem reads, or runs
the computation (which reports its own read count) and caches its value. -/
def cachedCall {α : Type} (cache : Option α) (compute : Unit → α × Nat) :
    (α × Nat) × Option α :=
  match cache with
  | some v => ((v, 0), some v)
  | none => (((compute ()).1, (compute ()).2), some (compute ()).1)

/-- The filesystem accesses of one un-cached `load_environment_data` run:
one directory scan per school plus one CSV read per resolved file, stopping
at the first unresolvable school. -/
def envReadCountLoop (NFC NFD : String → String) (directory : List DirEntry) :
    List String → Nat
  | [] => 0
  | school :: rest =>
    match find_file_by_name NFC NFD directory (envFileName school) with
    | none => 1
    | some _ => 2 + envReadCountLoop NFC NFD directory rest

/-- Filesystem accesses of one un-cached `load_environment_data` run. -/
def envReadCount (NFC NFD : String → String) (directory : List DirEntry) : Nat :=
  envReadCountLoop NFC NFD directory ecSchools

/-- Filesystem accesses of one un-cached `load_growth_data` run: one
directory scan, plus opening the workbook when one is found. -/
def growthReadCount (directory : List DirEntry) : Nat :=
  match firstXlsx directory with
  | none => 1
  | some _ => 2

/-- Claim C9: for both memoized loaders, a second invocation in the same
process returns the same table content as the first and performs zero
filesystem reads, because the cached value is returned without re-running
the loader. -/
theorem claim_C9_memoized_loaders (NFC NFD : String → String) (directory : List DirEntry)
    (readCsv : String → List EnvRow) (workbook : String → List (String × List RawGrowthRow)) :
    ((cachedCall
        ((cachedCall none fun _ =>
          (load_environment_data NFC NFD directory readCsv, envReadCount NFC NFD directory)).2)
        fun _ =>
          (load_environment_data NFC NFD directory readCsv,
            envReadCount NFC NFD directory)).1 =
        (load_environment_data NFC NFD directory readCsv, 0))
    ∧ ((cachedCall
        ((cachedCall none fun _ =>
          (load_growth_data directory workbook, growthReadCount directory)).2)
        fun _ => (load_growth_data directory workbook, growthReadCount directory)).1 =
        (load_growth_data directory workbook, 0)) :=
  ⟨rfl, rfl⟩

/-- Witness for C9 at a concrete input: both loaders over an empty data
directory, run twice through the cache, return the first result again with
zero filesystem reads. -/
theorem claim_C9_memoized_loaders_witness :
    ((cachedCall
        ((cachedCall none fun _ =>
          (load_environment_data id id [] fun _ => [], envReadCount id id [])).2)
        fun _ => (load_environment_data id id [] fun _ => [], envReadCount id id [])).1 =
        (load_environment_data id id [] fun _ => [], 0))
    ∧ ((cachedCall
        ((cachedCall none fun _ =>
          (load_growth_data [] fun _ => [], growthReadCount [])).2)
        fun _ => (load_growth_data [] fun _ => [], growthReadCount [])).1 =
        (load_growth_data [] fun _ => [], 0)) :=
  claim_C9_memoized_loaders id id [] (fun _ => []) (fun _ => [])
